import Mathlib

/-!
Verification of the i18nco library (numlinka/pyi18nco) against its
natural-language specification.

The development shallowly embeds the core of the library:
the translation store of `src/i18nco/internationalization.py`
(class `I18nControl` held by `Internationalization`), the pure utilities of
`src/i18nco/utils.py` (`decode_escape_sequences`, `match_best_locale`),
the writing-system reference data of `src/i18nco/constants.py`, and the
competing ".lang" loader of `src/i18nco/components.py`
(`I18nLangLoad.con_load_lang` over `BaseI18n.con_add_translation` of
`src/i18nco/i18nbase.py`).

Python dictionaries are modelled as key-unique association lists preserving
insertion order (CPython dicts preserve insertion order, which is observable
through `available_locales`).  Fallible operations return `Except PyErr`.
-/

set_option autoImplicit false

namespace I18nco

/-- A Python exception, as far as the embedded code can raise one. -/
inductive PyErr where
  /-- `TypeError` -/
  | typeError
  /-- `ValueError` -/
  | valueError
  deriving DecidableEq, Repr

/-!
Python string primitives, implemented by structural recursion over the
character list so that concrete runs reduce inside the kernel.  They model
`str.strip`, `str.startswith`, `str.endswith`, slicing, `str.split` with a
one-character separator, and `sep.join`.
-/

/-- The characters `str.strip()` removes: space, `\t`, `\n`, `\r`, `\f`,
`\v`. -/
def isPySpace (c : Char) : Bool :=
  c = ' ' ∨ c = '\t' ∨ c = '\n' ∨ c = '\r' ∨ c = Char.ofNat 12 ∨ c = Char.ofNat 11

/-- `s.strip()`. -/
def pyStrip (s : String) : String :=
  String.mk (((s.data.dropWhile isPySpace).reverse.dropWhile isPySpace).reverse)

/-- `s.startswith(pre)`. -/
def pyStartsWith (s pre : String) : Bool :=
  List.isPrefixOf pre.data s.data

/-- `s.endswith(suf)`. -/
def pyEndsWith (s suf : String) : Bool :=
  List.isPrefixOf suf.data.reverse s.data.reverse

/-- `s[n:]` for `n ≥ 0`. -/
def pyDropLeft (s : String) (n : Nat) : String :=
  String.mk (s.data.drop n)

/-- `s[:-n]` for `n > 0` (empty when the string is shorter than `n`). -/
def pyDropRight (s : String) (n : Nat) : String :=
  String.mk ((s.data.reverse.drop n).reverse)

/-- `s.split(sep)` for a one-character separator: like Python, empty parts
are kept and the result is never empty. -/
def splitCharList (sep : Char) (l : List Char) : List (List Char) :=
  l.foldr
    (fun c acc =>
      if c = sep then [] :: acc
      else
        match acc with
        | [] => [[c]]
        | g :: gs => (c :: g) :: gs)
    [[]]

/-- `s.split(sep)` for a one-character separator, as strings. -/
def pySplitChar (sep : Char) (s : String) : List String :=
  (splitCharList sep s.data).map String.mk

/-- `sep.join(parts)`. -/
def joinWith (sep : String) : List String → String
  | [] => ""
  | [s] => s
  | s :: rest => s ++ sep ++ joinWith sep rest

/-- The inner mapping of one locale: translation key to translation text.
Models the Python `Dict[TextKey, str]` bucket. -/
abbrev Bucket := List (String × String)

/-- The translation table: locale code to bucket.  Models the Python
`Dict[LocaleCode, Dict[TextKey, str]]` field `__table_translation`. -/
abbrev Table := List (String × Bucket)

/-- `bucket.get(key, None)`: first entry with the given key. -/
def bucketGet (b : Bucket) (k : String) : Option String :=
  (b.find? (fun q => q.1 == k)).map (·.2)

/-- `bucket[key] = text`: update the entry in place if the key is present
(dicts keep the original position), otherwise append it at the end. -/
def bucketSet (b : Bucket) (k v : String) : Bucket :=
  match b with
  | [] => [(k, v)]
  | (k', v') :: rest => if k' = k then (k, v) :: rest else (k', v') :: bucketSet rest k v

/-- `table.get(locale, None)`: the bucket stored for a locale. -/
def tableGetBucket (t : Table) (l : String) : Option Bucket :=
  (t.find? (fun p => p.1 == l)).map (·.2)

/-- `table.get(locale, {}).get(key, None)`. -/
def tableLookup (t : Table) (l k : String) : Option String :=
  match tableGetBucket t l with
  | none => none
  | some b => bucketGet b k

/-- `table[locale][key] = text`, creating the locale's bucket if absent
(new dict keys are appended at the end, in insertion order). -/
def tableSetEntry (t : Table) (l k v : String) : Table :=
  match t with
  | [] => [(l, [(k, v)])]
  | (l', b) :: rest => if l' = l then (l, bucketSet b k v) :: rest else (l', b) :: tableSetEntry rest l k v

/-- `if locale in table and key in table[locale]: del table[locale][key]` —
the key is removed from the locale's bucket; the bucket itself stays,
even when it becomes empty. -/
def tableEraseKey (t : Table) (l k : String) : Table :=
  t.map (fun p => if p.1 = l then (p.1, p.2.filter (fun q => !(q.1 == k))) else p)

/-- `if locale in table: del table[locale]` — the locale's whole bucket is
removed (dict keys are unique, so filtering equals single deletion). -/
def tableEraseBucket (t : Table) (l : String) : Table :=
  t.filter (fun p => !(p.1 == l))

/-- The mutable state of one `I18nControl` (internationalization.py, lines
109-118): the translation table and the primary/secondary locale pair. -/
structure I18nState where
  table : Table
  firstLocale : String
  secondLocale : String
  deriving DecidableEq, Repr

/-- A freshly constructed store: empty table, both locales `en_US`
(`I18nControl.__init__`). -/
def freshI18n : I18nState := ⟨[], "en_US", "en_US"⟩

/-- `available_locales` property: `tuple(self.__table_translation.keys())`,
in insertion order. -/
def availableLocales (st : I18nState) : List String :=
  st.table.map (·.1)

/-- The `locale` argument shape accepted by `set_translation` and carried by
the ".lang" loaders: a single locale code or a list of codes (a `#define
locale` directive stores the raw value list into the `locale` variable). -/
inductive LocArg where
  | single (l : String)
  | multi (ls : List String)
  deriving DecidableEq, Repr

/-- `I18nControl.set_translation` (internationalization.py, lines 251-268)
for a scalar-or-absent locale: an absent locale targets `first_locale`;
an absent key deletes the locale's whole bucket; an absent text deletes the
single entry; otherwise the entry is inserted or overwritten. -/
def setTranslationSingle (st : I18nState) (locale : Option String) (key text : Option String) :
    I18nState :=
  let loc := locale.getD st.firstLocale
  match key with
  | none => { st with table := tableEraseBucket st.table loc }
  | some k =>
    match text with
    | none => { st with table := tableEraseKey st.table loc k }
    | some v => { st with table := tableSetEntry st.table loc k v }

/-- `I18nControl.set_translation` (internationalization.py, lines 195-268):
a list locale recurses over its elements in order; otherwise the scalar
case applies. -/
def set_translation (st : I18nState) (locale : Option LocArg) (key text : Option String) :
    I18nState :=
  match locale with
  | some (.multi ls) => ls.foldl (fun s l => setTranslationSingle s (some l) key text) st
  | some (.single l) => setTranslationSingle st (some l) key text
  | none => setTranslationSingle st none key text

/-!
The "self translation" fallback.  `I18nControl.translation` falls back to
`Internationalization._attribute_overload` (internationalization.py, lines
81-96), which splits the key on `.` and chases the segments as CPython
attribute lookups starting from the `Internationalization` instance: the
first segment through `object.__getattribute__` (bypassing the custom
`__getattribute__`), later segments through plain `getattr`.  The chain's
result is returned when it is a string; a failed lookup or a non-string
result yields the key itself.

The object graph of a store is modelled below for the attributes the source
code itself defines (the `ctrl`/`i18n` references, `I18nControl`'s
properties, private fields and methods, and the class-level `__module__`
string).  Attributes CPython synthesises beyond these (other dunders,
attributes of bound-method or string objects) are outside the model and
treated as unresolved; `_attribute_overload` maps an unresolved chain and a
non-string chain result alike to the key, so this only narrows which keys
the model recognises as fallback hits, and no claim depends on the
unmodelled names.
-/

/-- A Python object reachable from the store during self-translation:
the `Internationalization` instance, its `I18nControl`, a string, or any
other (non-string) object such as a bound method, lock, dict or tuple. -/
inductive PyObj where
  | i18nObj
  | ctrlObj
  | pyStr (s : String)
  | pyOther
  deriving DecidableEq, Repr

/-- `object.__getattribute__` on the `Internationalization` instance: its
only instance attribute is `ctrl` (set in `__init__`); its class dict
carries the methods and the `__module__` string. -/
def superGetattrI18n (n : String) : Option PyObj :=
  if n = "ctrl" then some .ctrlObj
  else if n = "__module__" then some (.pyStr "i18nco.internationalization")
  else if n = "_attribute_overload" ∨ n = "__getattribute__" ∨ n = "__call__" ∨
      n = "__init__" ∨ n = "__doc__" then some .pyOther
  else none

/-- `I18nControl.translation(n, None)` for a dot-free key `n`: primary
lookup, then secondary, then the one-segment `_attribute_overload` chain,
which here is exactly `object.__getattribute__` on the instance.  This is
the resolver's dynamic recursion unfolded one level: it is reached from
`Internationalization.__getattribute__` during a multi-segment chase, always
with a single dot-free segment, so it cannot recurse further. -/
def flatTranslation (st : I18nState) (n : String) : String :=
  match tableLookup st.table st.firstLocale n with
  | some v => v
  | none =>
    match tableLookup st.table st.secondLocale n with
    | some v => v
    | none =>
      match superGetattrI18n n with
      | some (.pyStr s) => s
      | _ => n

/-- `getattr` on the `I18nControl` instance: the `i18n` back reference, the
`_lock`, the name-mangled private fields (the two locale strings and the
table), the three properties (the locale strings and the
`available_locales` tuple), the public methods, and the class-level
`__module__` string. -/
def ctrlGetattr (st : I18nState) (n : String) : Option PyObj :=
  if n = "i18n" then some .i18nObj
  else if n = "first_locale" ∨ n = "_I18nControl__first_locale" then some (.pyStr st.firstLocale)
  else if n = "second_locale" ∨ n = "_I18nControl__second_locale" then some (.pyStr st.secondLocale)
  else if n = "__module__" then some (.pyStr "i18nco.internationalization")
  else if n = "available_locales" ∨ n = "_lock" ∨ n = "_I18nControl__table_translation" ∨
      n = "set_locale" ∨ n = "set_translation" ∨ n = "translation" ∨
      n = "load_lang_content" ∨ n = "load_lang" ∨ n = "load_csv_i18n" ∨
      n = "load_dict" ∨ n = "load_json" ∨ n = "load_json_i18n" ∨
      n = "auto_load" ∨ n = "__doc__" ∨ n = "__init__" then some .pyOther
  else none

/-- `getattr` on the `Internationalization` instance, i.e. its custom
`__getattribute__` (internationalization.py, lines 98-102): names starting
with `_` and the name `ctrl` go through `object.__getattribute__`; every
other name is answered by `self.ctrl.translation(name)`, an `I18nString`. -/
def i18nGetattrDyn (st : I18nState) (n : String) : Option PyObj :=
  if pyStartsWith n "_" ∨ n = "ctrl" then superGetattrI18n n
  else some (.pyStr (flatTranslation st n))

/-- One `getattr` step during the `_attribute_overload` chase.  String and
other opaque objects expose no modelled attributes. -/
def getattrStep (st : I18nState) (o : PyObj) (n : String) : Option PyObj :=
  match o with
  | .i18nObj => i18nGetattrDyn st n
  | .ctrlObj => ctrlGetattr st n
  | .pyStr _ => none
  | .pyOther => none

/-- Chase the remaining key segments with `getattr`. -/
def chaseAttr (st : I18nState) (o : PyObj) : List String → Option PyObj
  | [] => some o
  | n :: rest =>
    match getattrStep st o n with
    | none => none
    | some o' => chaseAttr st o' rest

/-- `Internationalization._attribute_overload` (internationalization.py,
lines 81-96): chase the dot-segments of the key from the instance; return
the chain's result when it is a string, otherwise the key itself (an
`AttributeError` anywhere in the chain is caught and also yields the key). -/
def attributeOverload (st : I18nState) (target : String) : String :=
  match pySplitChar '.' target with
  | [] => target
  | n :: rest =>
    match superGetattrI18n n with
    | none => target
    | some o =>
      match chaseAttr st o rest with
      | some (.pyStr s) => s
      | _ => target

/-- `I18nControl.translation` (internationalization.py, lines 270-325):
look up under the explicit locale, or under `first_locale`; fall back to
`second_locale` only when no explicit locale was given; finally fall back
to `_attribute_overload`, which degrades to the key itself.  The
`I18nString` result compares as its underlying string. -/
def translationResult (st : I18nState) (key : String) (locale : Option String) : String :=
  let targetLocale := locale.getD st.firstLocale
  let result := tableLookup st.table targetLocale key
  let result :=
    match result, locale with
    | none, none => tableLookup st.table st.secondLocale key
    | r, _ => r
  match result with
  | some v => v
  | none => attributeOverload st key

/-!
`decode_escape_sequences` (utils.py, lines 23-72).  The regular expression
`\\(u[0-9A-Fa-f]{4}|U[0-9A-Fa-f]{8}|x[0-9A-Fa-f]{2}|.)` is substituted
left to right with non-overlapping matches; `.` does not match a newline,
so a backslash followed by a newline (or at the end of the text) stays.
When the single-character alternative matches `u`, `U` or `x` (the hex
alternatives having failed), `replace_escape` calls `int("", 16)`, which
raises `ValueError`; the model returns `none` there.  `chr` raises
`ValueError` above `0x10FFFF`; CPython does accept lone-surrogate code
points, which a Lean `Char` cannot carry, so the model reports those as
errors too — no claim involves them.
-/

/-- The value of a `[0-9A-Fa-f]` digit. -/
def hexDigitVal (c : Char) : Option Nat :=
  if '0' ≤ c ∧ c ≤ '9' then some (c.toNat - '0'.toNat)
  else if 'a' ≤ c ∧ c ≤ 'f' then some (c.toNat - 'a'.toNat + 10)
  else if 'A' ≤ c ∧ c ≤ 'F' then some (c.toNat - 'A'.toNat + 10)
  else none

/-- `int(digits, 16)` over a digit list that the regex guarantees nonempty. -/
def hexVal (l : List Char) : Option Nat :=
  l.foldl (fun acc c => do pure ((← acc) * 16 + (← hexDigitVal c))) (some 0)

/-- `chr(n)`: valid Unicode scalar values only (see the module comment). -/
def mkChar (n : Nat) : Option Char :=
  if n.isValidChar then some (Char.ofNat n) else none

/-- The single-character branch of `replace_escape` for a character the
regex `.` matched after the backslash: `u`, `U` and `x` (without their hex
digits) make `int("", 16)` raise; `n t b r f a v` map to their control
characters; `0` maps to NUL, `\` to itself and `_` to a space; anything
else passes through unchanged. -/
def singleEscape (c : Char) : Option Char :=
  if c = 'u' ∨ c = 'U' ∨ c = 'x' then none
  else if c = 'n' then some '\n'
  else if c = 't' then some '\t'
  else if c = 'b' then some (Char.ofNat 8)
  else if c = 'r' then some '\r'
  else if c = 'f' then some (Char.ofNat 12)
  else if c = 'a' then some (Char.ofNat 7)
  else if c = 'v' then some (Char.ofNat 11)
  else if c = '0' then some (Char.ofNat 0)
  else if c = '\\' then some '\\'
  else if c = '_' then some ' '
  else some c

/-- The left-to-right scan of `ESCAPE_SEQUENCE_RE.sub(replace_escape, ·)`
over the character list of the text. -/
def decodeEsc : List Char → Option (List Char)
  | [] => some []
  | '\\' :: rest =>
    match rest with
    | [] => some ['\\']
    | e :: rest1 =>
      if e = 'u' then
        match rest1 with
        | a :: b :: c :: d :: rest2 =>
          match hexVal [a, b, c, d] with
          | some n =>
            match mkChar n, decodeEsc rest2 with
            | some ch, some tl => some (ch :: tl)
            | _, _ => none
          | none => none
        | _ => none
      else if e = 'U' then
        match rest1 with
        | a :: b :: c :: d :: a' :: b' :: c' :: d' :: rest2 =>
          match hexVal [a, b, c, d, a', b', c', d'] with
          | some n =>
            match mkChar n, decodeEsc rest2 with
            | some ch, some tl => some (ch :: tl)
            | _, _ => none
          | none => none
        | _ => none
      else if e = 'x' then
        match rest1 with
        | a :: b :: rest2 =>
          match hexVal [a, b] with
          | some n =>
            match mkChar n, decodeEsc rest2 with
            | some ch, some tl => some (ch :: tl)
            | _, _ => none
          | none => none
        | _ => none
      else if e = '\n' then
        -- the backslash stays and scanning resumes at the newline, which
        -- itself cannot start a match
        match decodeEsc rest1 with
        | some tl => some ('\\' :: '\n' :: tl)
        | none => none
      else
        match singleEscape e, decodeEsc rest1 with
        | some ch, some tl => some (ch :: tl)
        | _, _ => none
  | c :: rest =>
    match decodeEsc rest with
    | some tl => some (c :: tl)
    | none => none

/-- `decode_escape_sequences(text)` (utils.py, lines 26-72). -/
def decode_escape_sequences (s : String) : Option String :=
  (decodeEsc s.data).map String.mk

/-- `WRITING_SYSTEM_TABLE` (constants.py, lines 202-215): writing-system
name to a mapping of locale code to human-readable language name, in
source order.  The Georgian and Tamil tables of constants.py are not
entries of this dict in the source. -/
def WRITING_SYSTEM_TABLE : List (String × List (String × String)) :=
  [ ("Latin Alphabet",
      [ ("en_US", "English (United States)"), ("en_GB", "English (United Kingdom)"),
        ("es_ES", "Español (España)"), ("fr_FR", "Français (France)"),
        ("de_DE", "Deutsch (Deutschland)"), ("it_IT", "Italiano (Italia)"),
        ("pt_PT", "Português (Portugal)"), ("pt_BR", "Português (Brasil)"),
        ("en_SG", "English (Singapore)"), ("ms_SG", "Bahasa Melayu (Singapura)"),
        ("en_MY", "English (Malaysia)"), ("ms_MY", "Bahasa Melayu (Malaysia)") ]),
    ("Chinese Characters",
      [ ("zh_CN", "简体中文 (中国)"), ("zh_HK", "繁體中文 (中國香港)"),
        ("zh_MO", "繁體中文 (中國澳門)"), ("zh_TW", "繁體中文 (中國台灣)"),
        ("zh_SG", "中文 (新加坡)"), ("zh_MY", "中文 (马来西亚)"),
        ("ja_JP", "日本語 (日本)"), ("ko_KR", "한국어 (대한민국)"),
        ("ko_KP", "조선말 (조선 민주주의 인민 공화국)") ]),
    ("Cyrillic Alphabet",
      [ ("ru_RU", "Русский (Россия)"), ("uk_UA", "Українська (Україна)"),
        ("bg_BG", "Български (България)"), ("sr_RS", "Српски (Србија)") ]),
    ("Arabic Alphabet",
      [ ("ar_SA", "العربية (المملكة العربية السعودية)"), ("ar_EG", "العربية (مصر)"),
        ("fa_IR", "فارسی (ایران)"), ("ur_PK", "اُردُو (پاکستان)") ]),
    ("Devanagari Alphabet",
      [ ("hi_IN", "हिंदी (भारत)"), ("ne_NP", "नेपाली (नेपाल)") ]),
    ("Greek Alphabet",
      [ ("el_GR", "Ελληνικά (Ελλάδα)"), ("el_CY", "Ελληνικά (Κύπρος)") ]),
    ("Japanese Kana", [ ("ja_JP", "日本語 (日本)") ]),
    ("Hangul",
      [ ("ko_KR", "한국어 (대한민국)"), ("ko_KP", "조선말 (조선 민주주의 인민 공화국)") ]),
    ("Thai Alphabet", [ ("th_TH", "ไทย (ประเทศไทย)") ]),
    ("Hebrew Alphabet",
      [ ("he_IL", "עברית (ישראל)"), ("yi_001", "ייִדיש (יידיש)") ]),
    ("Khmer Alphabet", [ ("km_KH", "ភាសាខ្មែរ (កម្ពុជា)") ]),
    ("Ethiopic or Ge\x27ez Script",
      [ ("am_ET", "አማርኛ (ኢትዮጵያ)"), ("ti_ER", "ትግርኛ (ኤርትራ)"),
        ("et_EE", "አማርኛ (ኢትዮጵያ)") ]) ]

/-- The writing-system tier of `match_best_locale` (utils.py, lines
142-148): scan the tables in order; a table that does not contain the
target as a key is skipped; in a containing table, return its first key
that is in `available`; with no hit in one containing table the scan goes
on to later tables. -/
def writingSystemMatch (target : String) (available : List String) : Option String :=
  WRITING_SYSTEM_TABLE.findSome? fun wt =>
    if (wt.2.find? (fun p => p.1 == target)).isSome then
      wt.2.findSome? fun p => if p.1 ∈ available then some p.1 else none
    else none

/-- `match_best_locale(target, available)` (utils.py, lines 110-155).
Tiers: exact membership; language-prefix (`target.split("_")[0]`) against
the candidates in order; writing-system co-occurrence; finally a scan of
`UNITED_NATIONS_LANGUAGE_LIST`.  That last list is imported from
`.constants` (utils.py, line 20) but `constants.py` under src defines no
such name — importing the module raises — so the list is a parameter
`unl` here. -/
def match_best_locale (unl : List String) (target : String) (available : List String) :
    Option String :=
  if target ∈ available then some target
  else
    let language_code := (pySplitChar '_' target).headD ""
    match available.find? (fun lc => pyStartsWith lc language_code) with
    | some lc => some lc
    | none =>
      match writingSystemMatch target available with
      | some lc => some lc
      | none => unl.findSome? fun lang => available.find? (fun lc => pyStartsWith lc lang)

/-- `I18nControl.set_locale` (internationalization.py, lines 135-192): an
explicit first language replaces the primary; an explicit second language
replaces the secondary; with the second absent and `auto_adjust` set, the
secondary is recomputed by matching the (updated) primary against the
available locales minus the primary, resetting to `en_US` on no match.
`unl` is the `UNITED_NATIONS_LANGUAGE_LIST` parameter of
`match_best_locale`. -/
def set_locale (unl : List String) (st : I18nState) (first second : Option String)
    (autoAdjust : Bool) : I18nState :=
  let st1 :=
    match first with
    | some f => { st with firstLocale := f }
    | none => st
  match second with
  | some s => { st1 with secondLocale := s }
  | none =>
    if autoAdjust then
      let avail := (availableLocales st1).filter (fun x => x != st1.firstLocale)
      match match_best_locale unl st1.firstLocale avail with
      | none => { st1 with secondLocale := "en_US" }
      | some best => { st1 with secondLocale := best }
    else st1

/-- `str.splitlines()` for line-feed separated text: split on `"\n"`,
without a trailing empty line for content ending in a newline
(`"".splitlines()` is `[]`).  Other terminator characters (`\r`, `\f`,
…) are outside the scope of the claims. -/
def pySplitlines (s : String) : List String :=
  if s = "" then []
  else
    let parts := pySplitChar '\n' s
    match parts.getLast? with
    | some "" => parts.dropLast
    | _ => parts

/-- `line.split("=", 1)`: `none` models the one-element result (no `=`). -/
def splitFirstEq (line : String) : Option (String × String) :=
  match pySplitChar '=' line with
  | [] => none
  | [_] => none
  | p :: rest => some (p, joinWith "=" rest)

/-- `final_key = f"{superiors}.{key}" if superiors != "" else key`
(internationalization.py, line 458; components.py, line 154). -/
def mkFinalKey (sup key : String) : String :=
  if sup ≠ "" then sup ++ "." ++ key else key

/-- The loop state of `I18nControl.load_lang_content` (internationalization
.py, lines 390-392): the store being written, and the `locale`,
`superiors`, `multiline_mode`, `multiline_line` and `key` variables.  In
the source `key` is first assigned inside the loop; it is read only after
an assignment, so the initial value is irrelevant. -/
structure LangLoadState where
  store : I18nState
  locale : LocArg
  superiors : String
  multilineMode : Bool
  multilineLine : List String
  key : String
  deriving DecidableEq, Repr

/-- The tail of one `load_lang_content` loop iteration (internationalization
.py, lines 444-466), entered with `key` and `text` bound: detect the
continuation marker (a trailing `" \"` or a lone `"\"`), strip one pair of
surrounding double quotes, either buffer a continuation part or join any
buffered parts with the empty string, decode escapes and store the entry
under the effective key. -/
def afterParse (ls : LangLoadState) (key text : String) : Except PyErr LangLoadState :=
  let mlMode := pyEndsWith text " \\" ∨ text = "\\"
  let text := if mlMode then pyDropRight text 2 else text
  let text :=
    if text.data.length ≥ 2 ∧ pyStartsWith text "\"" ∧ pyEndsWith text "\"" then
      pyDropRight (pyDropLeft text 1) 1
    else text
  if mlMode then
    .ok { ls with key := key, multilineMode := true,
                  multilineLine := ls.multilineLine ++ [text] }
  else
    let finalKey := mkFinalKey ls.superiors key
    let (text, buffered) :=
      if ls.multilineLine ≠ [] then (joinWith "" (ls.multilineLine ++ [text]), ([] : List String))
      else (text, ls.multilineLine)
    match decode_escape_sequences text with
    | none => .error .valueError
    | some text' =>
      .ok { ls with key := key, multilineMode := false, multilineLine := buffered,
                    store := set_translation ls.store (some ls.locale) (some finalKey) (some text') }

/-- One iteration of the `load_lang_content` line loop (internationalization
.py, lines 394-466): strip the line; outside multiline mode, handle
`#define` directives (`locale` replaces the active locale with the whole
value list; `superiors` clears the prefix on an empty value list or a
first value of `"."`, `"/"` or `"#"`, and otherwise joins the values with
`"."`), skip comment lines and lines without `=`; inside multiline mode
the stripped line is the next continuation part. -/
def processLine (ls : LangLoadState) (rawLine : String) : Except PyErr LangLoadState :=
  let line := pyStrip rawLine
  if ¬ ls.multilineMode then
    if pyStartsWith line "#define" then
      match pySplitChar ' ' line with
      | _ :: d :: v1 :: vrest =>
        let values := (v1 :: vrest).filter (· ≠ "")
        if d = "locale" then
          if values = [] then .ok ls else .ok { ls with locale := .multi values }
        else if d = "superiors" then
          if values = [] ∨ values.headD "" ∈ [".", "/", "#"] then
            .ok { ls with superiors := "" }
          else .ok { ls with superiors := joinWith "." values }
        else .ok ls
      | _ => .ok ls
    else if pyStartsWith line "#" then .ok ls
    else if pyStartsWith line ";" then .ok ls
    else if pyStartsWith line "//" then .ok ls
    else
      match splitFirstEq line with
      | none => .ok ls
      | some (k, t) => afterParse ls (pyStrip k) (pyStrip t)
  else
    afterParse ls ls.key line

/-- `I18nControl.load_lang_content` (internationalization.py, lines
327-473).  Empty content returns at once.  With the locale argument
absent, line 379 evaluates `self.i18n.ctrl_get_locale()[0]`:
`Internationalization` defines no `ctrl_get_locale`, its custom
`__getattribute__` (lines 98-102) rewrites the name into
`self.ctrl.translation("ctrl_get_locale")`, an `I18nString`, and calling
that string raises `TypeError` — modelled by `.error .typeError`.
Otherwise the lines are processed in order and a still-buffered
continuation is flushed at the end (lines 468-473). -/
def loadLangContent (st : I18nState) (content : String) (locale : Option String)
    (sup : Option String) : Except PyErr I18nState :=
  if content = "" then .ok st
  else
    match locale with
    | none => .error .typeError
    | some loc =>
      let init : LangLoadState := ⟨st, .single loc, sup.getD "", false, [], ""⟩
      match (pySplitlines content).foldlM processLine init with
      | .error e => .error e
      | .ok fin =>
        if fin.multilineLine ≠ [] then
          let finalKey := mkFinalKey fin.superiors fin.key
          match decode_escape_sequences (joinWith "" fin.multilineLine) with
          | none => .error .valueError
          | some text =>
            .ok (set_translation fin.store (some fin.locale) (some finalKey) (some text))
        else .ok fin.store

/-- Modelled from the spec: `InstructionBreakdown.define` is called by
`I18nLangLoad.con_load_lang` (components.py, line 103) and exercised by
tests/test_utils.py, but its definition is absent from src/utils.py.
Spec §4.3: recognise lines beginning with the literal token `#define`,
split on whitespace, take the first token after `#define` as the directive
name and the remaining non-empty tokens as the value list; return
`("", [])` for any line not starting with `#define` or containing no name
token. -/
def instructionBreakdownDefine (line : String) : String × List String :=
  match (pySplitChar ' ' line).filter (· ≠ "") with
  | "#define" :: name :: vals => (name, vals)
  | _ => ("", [])

/-- The loop state of `I18nLangLoad.con_load_lang` (components.py, lines
92-95): the `BaseI18n` table `_sc_translation` being written and the
`locale`, `superiors`, `multiline_mode`, `multiline_line` and `key`
variables (`key` is initialised to `""` in this variant). -/
structure ConLoadState where
  table : Table
  locale : LocArg
  superiors : String
  multilineMode : Bool
  multilineLine : List String
  key : String
  deriving DecidableEq, Repr

/-- `BaseI18n.con_add_translation` (i18nbase.py, lines 53-74): insert or
overwrite one entry, or one entry per locale of a list, in order. -/
def conAddTranslation (t : Table) (locale : LocArg) (k v : String) : Table :=
  match locale with
  | .single l => tableSetEntry t l k v
  | .multi ls => ls.foldl (fun acc l => tableSetEntry acc l k v) t

/-- The tail of one `con_load_lang` loop iteration (components.py, lines
140-162): like `afterParse`, but the continuation marker is only a
trailing `" \"`, buffered parts are joined with `"\n"`, and the entry goes
through `con_add_translation`. -/
def conAfterParse (ls : ConLoadState) (key text : String) : Except PyErr ConLoadState :=
  let mlMode := pyEndsWith text " \\"
  let text := if mlMode then pyDropRight text 2 else text
  let text :=
    if text.data.length ≥ 2 ∧ pyStartsWith text "\"" ∧ pyEndsWith text "\"" then
      pyDropRight (pyDropLeft text 1) 1
    else text
  if mlMode then
    .ok { ls with key := key, multilineMode := true,
                  multilineLine := ls.multilineLine ++ [text] }
  else
    let finalKey := mkFinalKey ls.superiors key
    let (text, buffered) :=
      if ls.multilineLine ≠ [] then
        (joinWith "\n" (ls.multilineLine ++ [text]), ([] : List String))
      else (text, ls.multilineLine)
    match decode_escape_sequences text with
    | none => .error .valueError
    | some text' =>
      .ok { ls with key := key, multilineMode := false, multilineLine := buffered,
                    table := conAddTranslation ls.table ls.locale finalKey text' }

/-- One iteration of the `con_load_lang` line loop (components.py, lines
97-162): directives go through `InstructionBreakdown.define`; a `locale`
directive replaces the active locale with the value list; a `superiors`
directive clears the prefix on an empty value list (the source's
`value == "."` and `value == "/"` compare a list against a string and are
never true) and otherwise joins the values with `"."`; comment lines and
lines without `=` are skipped. -/
def conProcessLine (ls : ConLoadState) (rawLine : String) : Except PyErr ConLoadState :=
  let line := pyStrip rawLine
  if ¬ ls.multilineMode then
    if pyStartsWith line "#define" then
      let dv := instructionBreakdownDefine line
      if dv.1 = "locale" then
        if dv.2 = [] then .ok ls else .ok { ls with locale := .multi dv.2 }
      else if dv.1 = "superiors" then
        if dv.2 = [] then .ok { ls with superiors := "" }
        else .ok { ls with superiors := joinWith "." dv.2 }
      else .ok ls
    else if pyStartsWith line "#" then .ok ls
    else if pyStartsWith line ";" then .ok ls
    else if pyStartsWith line "//" then .ok ls
    else
      match splitFirstEq line with
      | none => .ok ls
      | some (k, t) => conAfterParse ls (pyStrip k) (pyStrip t)
  else
    conAfterParse ls ls.key line

/-- `I18nLangLoad.con_load_lang` (components.py, lines 81-169) on the lines
read from the file (`readlines`, each line then stripped — the file I/O is
replaced by the line list), with the locale and superiors arguments
resolved, writing into a `BaseI18n` translation table.  A still-buffered
continuation is flushed at the end with the `"\n"` join (lines 164-169). -/
def conLoadLang (t : Table) (lines : List String) (locale : LocArg) (sup : String) :
    Except PyErr Table :=
  let init : ConLoadState := ⟨t, locale, sup, false, [], ""⟩
  match lines.foldlM conProcessLine init with
  | .error e => .error e
  | .ok fin =>
    if fin.multilineLine ≠ [] then
      let finalKey := mkFinalKey fin.superiors fin.key
      match decode_escape_sequences (joinWith "\n" fin.multilineLine) with
      | none => .error .valueError
      | some text => .ok (conAddTranslation fin.table fin.locale finalKey text)
    else .ok fin.table

/-! Helper lemmas about the table model, shared by the claim theorems. -/

theorem bucketGet_bucketSet_self (b : Bucket) (k v : String) :
    bucketGet (bucketSet b k v) k = some v := by
  induction b with
  | nil => simp [bucketSet, bucketGet]
  | cons hd tl ih =>
    obtain ⟨k', v'⟩ := hd
    by_cases h : k' = k
    · subst h
      simp [bucketSet, bucketGet]
    · simpa [bucketSet, bucketGet, h] using ih

theorem tableLookup_setEntry_self (t : Table) (l k v : String) :
    tableLookup (tableSetEntry t l k v) l k = some v := by
  induction t with
  | nil => simp [tableSetEntry, tableLookup, tableGetBucket, bucketGet, bucketSet]
  | cons hd tl ih =>
    obtain ⟨l', b⟩ := hd
    by_cases h : l' = l
    · subst h
      simp [tableSetEntry, tableLookup, tableGetBucket, bucketGet_bucketSet_self]
    · simpa [tableSetEntry, tableLookup, tableGetBucket, h] using ih

theorem tableGetBucket_setEntry_ne (t : Table) (l l' k v : String) (h : l' ≠ l) :
    tableGetBucket (tableSetEntry t l k v) l' = tableGetBucket t l' := by
  have h' : l ≠ l' := Ne.symm h
  induction t with
  | nil => simp [tableSetEntry, tableGetBucket, h']
  | cons hd tl ih =>
    obtain ⟨l'', b⟩ := hd
    by_cases h2 : l'' = l
    · subst h2
      simp [tableSetEntry, tableGetBucket, h']
    · by_cases h3 : l'' = l'
      · subst h3
        simp [tableSetEntry, tableGetBucket, h2]
      · simpa [tableSetEntry, tableGetBucket, h2, h3] using ih

theorem tableLookup_setEntry_ne (t : Table) (l l' k k' v : String) (h : l' ≠ l) :
    tableLookup (tableSetEntry t l k v) l' k' = tableLookup t l' k' := by
  simp [tableLookup, tableGetBucket_setEntry_ne t l l' k v h]

theorem mem_map_fst_tableSetEntry (t : Table) (l k v : String) :
    l ∈ (tableSetEntry t l k v).map (·.1) := by
  induction t with
  | nil => simp [tableSetEntry]
  | cons hd tl ih =>
    obtain ⟨l', b⟩ := hd
    by_cases h : l' = l
    · subst h
      simp [tableSetEntry]
    · rw [show tableSetEntry ((l', b) :: tl) l k v = (l', b) :: tableSetEntry tl l k v from by
        simp [tableSetEntry, h], List.map_cons]
      exact List.mem_cons_of_mem _ ih

theorem map_fst_tableEraseKey (t : Table) (l k : String) :
    (tableEraseKey t l k).map (·.1) = t.map (·.1) := by
  induction t with
  | nil => rfl
  | cons hd tl ih =>
    obtain ⟨l', b⟩ := hd
    by_cases h : l' = l <;>
      simpa [tableEraseKey, h] using ih

theorem not_mem_map_fst_tableEraseBucket (t : Table) (l : String) :
    l ∉ (tableEraseBucket t l).map (·.1) := by
  simp [tableEraseBucket]

theorem tableGetBucket_eraseBucket_self (t : Table) (l : String) :
    tableGetBucket (tableEraseBucket t l) l = none := by
  simp [tableEraseBucket, tableGetBucket]

/-! The claim theorems. -/

/-- C1 (amended): for every store state, key `k` and explicitly supplied
locale `L`, if the table has no entry for `(L, k)` and the reflective
self-translation fallback leaves `k` unresolved, then `translation(k, L)`
returns `k` itself — in particular the secondary (or primary) locale is
never consulted, and the lookup cannot fail, `translationResult` being
total. -/
theorem c1_translation_missing_returns_key (st : I18nState) (L k : String)
    (hmiss : tableLookup st.table L k = none)
    (hover : attributeOverload st k = k) :
    translationResult st k (some L) = k := by
  simp [translationResult, hmiss, hover]

/-- Witness for C1 at a fresh store, `L = "en_US"`, `k = "welcome"`. -/
theorem c1_translation_missing_returns_key_witness :
    translationResult freshI18n "welcome" (some "en_US") = "welcome" :=
  c1_translation_missing_returns_key freshI18n "en_US" "welcome" (by rfl) (by rfl)

/-- C1 counterexample: on a fresh store, `(zh_CN, "ctrl.first_locale")` has
no table entry, yet `translation("ctrl.first_locale", "zh_CN")` returns
`"en_US"` — the self-translation fallback resolves the key's dot-path
through the `ctrl` attribute to the `first_locale` property string — and
not the key itself as the claim states. -/
theorem c1_counterexample_self_translation_hit :
    tableLookup freshI18n.table "zh_CN" "ctrl.first_locale" = none ∧
    translationResult freshI18n "ctrl.first_locale" (some "zh_CN") = "en_US" ∧
    ("en_US" : String) ≠ "ctrl.first_locale" :=
  ⟨rfl, rfl, by decide⟩

/-- C3: `load_lang_content("welcome = Hello!")` with no locale on a fresh
store — and indeed on every store and with any superiors argument — raises
`TypeError` instead of loading under the default locale: line 379 calls
`self.i18n.ctrl_get_locale()[0]`, and `ctrl_get_locale` resolves through
`Internationalization.__getattribute__` to a non-callable `I18nString`. -/
theorem c3_load_lang_content_no_locale_raises :
    loadLangContent freshI18n "welcome = Hello!" none none = .error .typeError ∧
    (∀ (st : I18nState) (sup : Option String),
        loadLangContent st "welcome = Hello!" none sup = .error .typeError) :=
  ⟨rfl, fun _ _ => rfl⟩

/-- C4 (amended): after a successful insertion `set_translation(L, k, v)`
the locale `L` is listed by `available_locales()`; deleting a single entry
with `set_translation(L, k, None)` never changes the listed locales (the
emptied bucket stays); a locale is removed from the listing exactly by the
bucket deletion `set_translation(L, None, None)`. -/
theorem c4_available_locales_insert_delete :
    (∀ (st : I18nState) (L k v : String),
        L ∈ availableLocales (set_translation st (some (.single L)) (some k) (some v))) ∧
    (∀ (st : I18nState) (L k : String),
        availableLocales (set_translation st (some (.single L)) (some k) none) =
          availableLocales st) ∧
    (∀ (st : I18nState) (L : String),
        L ∉ availableLocales (set_translation st (some (.single L)) none none)) := by
  refine ⟨fun st L k v => ?_, fun st L k => ?_, fun st L => ?_⟩
  · simpa [set_translation, setTranslationSingle, availableLocales] using
      mem_map_fst_tableSetEntry st.table L k v
  · simpa [set_translation, setTranslationSingle, availableLocales] using
      map_fst_tableEraseKey st.table L k
  · simpa [set_translation, setTranslationSingle, availableLocales] using
      not_mem_map_fst_tableEraseBucket st.table L

/-- Witness for C4 on concrete stores: insertion lists `en_US`, a single
entry deletion leaves the listing unchanged, a bucket deletion unlists. -/
theorem c4_available_locales_insert_delete_witness :
    "en_US" ∈ availableLocales (set_translation freshI18n (some (.single "en_US"))
        (some "k") (some "v")) ∧
    availableLocales (set_translation ⟨[("en_US", [("k", "v")])], "en_US", "en_US"⟩
        (some (.single "en_US")) (some "k") none) =
      availableLocales ⟨[("en_US", [("k", "v")])], "en_US", "en_US"⟩ ∧
    "en_US" ∉ availableLocales (set_translation ⟨[("en_US", [("k", "v")])], "en_US", "en_US"⟩
        (some (.single "en_US")) none none) :=
  ⟨c4_available_locales_insert_delete.1 freshI18n "en_US" "k" "v",
   c4_available_locales_insert_delete.2.1 _ "en_US" "k",
   c4_available_locales_insert_delete.2.2 _ "en_US"⟩

/-- C4 counterexample: insert `("en_US", "k", "v")` into a fresh store and
delete it again with `set_translation("en_US", "k", None)`; the locale
`en_US` then has no remaining entry, yet `available_locales()` still lists
it, contrary to the claim. -/
theorem c4_counterexample_empty_bucket_listed :
    availableLocales (set_translation (set_translation freshI18n (some (.single "en_US"))
        (some "k") (some "v")) (some (.single "en_US")) (some "k") none) = ["en_US"] ∧
    tableLookup (set_translation (set_translation freshI18n (some (.single "en_US"))
        (some "k") (some "v")) (some (.single "en_US")) (some "k") none).table "en_US" "k" =
      none :=
  ⟨rfl, rfl⟩

/-- C5: `set_locale(P)` with no explicit secondary and `auto_adjust` true
sets the primary locale to `P` and the secondary to
`match_best_locale(P, available_locales minus P)`, falling back to the
built-in default `en_US` when the match is `none`; with `P = zh_CN` and
`zh_HK` among the available locales the secondary becomes `zh_HK`.  `unl`
is the `UNITED_NATIONS_LANGUAGE_LIST` parameter. -/
theorem c5_set_locale_auto_adjust (unl : List String) (st : I18nState) (P : String) :
    (set_locale unl st (some P) none true).firstLocale = P ∧
    (set_locale unl st (some P) none true).secondLocale =
      (match_best_locale unl P ((availableLocales st).filter (fun x => x != P))).getD "en_US" ∧
    (set_locale unl ⟨[("zh_CN", [("zh_CN", "x")]), ("zh_HK", [("zh_HK", "y")])], "en_US", "en_US"⟩
        (some "zh_CN") none true).secondLocale = "zh_HK" := by
  have key : set_locale unl st (some P) none true =
      match match_best_locale unl P ((availableLocales st).filter (fun x => x != P)) with
      | none => { st with firstLocale := P, secondLocale := "en_US" }
      | some best => { st with firstLocale := P, secondLocale := best } := rfl
  refine ⟨?_, ?_, rfl⟩ <;>
    · rw [key]
      cases match_best_locale unl P ((availableLocales st).filter (fun x => x != P)) <;> rfl

/-- C10: `set_translation` with the locale argument absent targets the
primary locale: `set_translation(None, k, v)` inserts `(first_locale, k,
v)` leaving every other locale's bucket unchanged, and
`set_translation(None, None, None)` deletes the primary locale's entire
bucket. -/
theorem c10_set_translation_default_locale :
    (∀ (st : I18nState) (k v : String),
        tableLookup (set_translation st none (some k) (some v)).table st.firstLocale k =
          some v) ∧
    (∀ st : I18nState,
        tableGetBucket (set_translation st none none none).table st.firstLocale = none) ∧
    (∀ (st : I18nState) (k v l : String), l ≠ st.firstLocale →
        tableGetBucket (set_translation st none (some k) (some v)).table l =
          tableGetBucket st.table l) := by
  refine ⟨fun st k v => ?_, fun st => ?_, fun st k v l hl => ?_⟩
  · simpa [set_translation, setTranslationSingle] using
      tableLookup_setEntry_self st.table st.firstLocale k v
  · simpa [set_translation, setTranslationSingle] using
      tableGetBucket_eraseBucket_self st.table st.firstLocale
  · simpa [set_translation, setTranslationSingle] using
      tableGetBucket_setEntry_ne st.table st.firstLocale l k v hl

/-- Witness for C10 on the concrete store `{zh_CN: {a: b}}` with primary
`en_US`: the default-locale insertion lands under `en_US`, the bucket
deletion removes `en_US`, and the `zh_CN` bucket is untouched. -/
theorem c10_set_translation_default_locale_witness :
    tableLookup (set_translation ⟨[("zh_CN", [("a", "b")])], "en_US", "en_US"⟩ none
        (some "k") (some "v")).table "en_US" "k" = some "v" ∧
    tableGetBucket (set_translation ⟨[("zh_CN", [("a", "b")])], "en_US", "en_US"⟩ none
        none none).table "en_US" = none ∧
    tableGetBucket (set_translation ⟨[("zh_CN", [("a", "b")])], "en_US", "en_US"⟩ none
        (some "k") (some "v")).table "zh_CN" = some [("a", "b")] :=
  ⟨c10_set_translation_default_locale.1 _ "k" "v",
   c10_set_translation_default_locale.2.1 _,
   (c10_set_translation_default_locale.2.2 _ "k" "v" "zh_CN" (by decide)).trans rfl⟩

/-- C2: at the claimed input `("en_US", ["zh_CN", "ru_RU"])` the exact,
language-prefix and writing-system tiers all miss, and the function then
runs a fourth tier over `UNITED_NATIONS_LANGUAGE_LIST` — a name utils.py
imports but src's constants.py never defines: the result is the no-match
sentinel exactly when no entry of that list is a prefix of a candidate,
and with the six actual UN official language codes the call returns
`some "zh_CN"`, not the sentinel the claim requires. -/
theorem c2_match_best_locale_fourth_tier (unl : List String) :
    (match_best_locale unl "en_US" ["zh_CN", "ru_RU"] = none ↔
      (unl.all fun lang =>
        (["zh_CN", "ru_RU"].find? (fun lc => pyStartsWith lc lang)).isNone) = true) ∧
    match_best_locale ["ar", "zh", "en", "es", "fr", "ru"] "en_US" ["zh_CN", "ru_RU"] =
      some "zh_CN" := by
  constructor
  · have h : match_best_locale unl "en_US" ["zh_CN", "ru_RU"] =
        unl.findSome? (fun lang => ["zh_CN", "ru_RU"].find? (fun lc => pyStartsWith lc lang)) :=
      rfl
    rw [h]
    induction unl with
    | nil => simp
    | cons a as ih =>
      cases hfa : ["zh_CN", "ru_RU"].find? (fun lc => pyStartsWith lc a) <;>
        simp [List.findSome?_cons, hfa, ih]
  · rfl

/-- C6 (amended): a backslash followed by a single character `c` outside
`n t b r f a v` and the hex-escape openers decodes to `c` with the
backslash dropped — except that the code additionally maps `\0` to NUL and
`\_` to a space, raises `ValueError` on `u`, `U` or `x` without their hex
digits, and leaves a backslash before a newline untouched; for every other
`c` the pass-through holds. -/
theorem c6_other_single_escape_passthrough (c : Char)
    (h : c ∉ ['n', 't', 'b', 'r', 'f', 'a', 'v', '0', '_', 'u', 'U', 'x', '\n']) :
    decode_escape_sequences (String.mk ['\\', c]) = some (String.mk [c]) := by
  simp only [List.mem_cons, not_or] at h
  obtain ⟨hn, ht, hb, hr, hf, ha, hv, h0, hus, hu, hU, hx, hnl, -⟩ := h
  by_cases hbs : c = '\\'
  · subst hbs
    rfl
  · have e1 : decodeEsc ['\\', c] =
        if c = 'u' then none else if c = 'U' then none else if c = 'x' then none
        else if c = '\n' then some ['\\', '\n']
        else
          match singleEscape c, (some [] : Option (List Char)) with
          | some ch, some tl => some (ch :: tl)
          | _, _ => none := rfl
    have e2 : singleEscape c = some c := by
      simp [singleEscape, hn, ht, hb, hr, hf, ha, hv, h0, hus, hu, hU, hx, hbs]
    show (decodeEsc ['\\', c]).map String.mk = some (String.mk [c])
    rw [e1, if_neg hu, if_neg hU, if_neg hx, if_neg hnl, e2]
    rfl

/-- Witness for C6 at `c = 'z'`: `"\z"` decodes to `"z"`. -/
theorem c6_other_single_escape_passthrough_witness :
    decode_escape_sequences (String.mk ['\\', 'z']) = some (String.mk ['z']) :=
  c6_other_single_escape_passthrough 'z' (by decide)

/-- C6 counterexample: `'_'` is not one of `n t b r f a v` and begins no
hex escape, yet `decode_escape_sequences "\_"` yields `" "` (a space), not
the pass-through `"_"` the claim requires. -/
theorem c6_counterexample_underscore_to_space :
    decode_escape_sequences "\\_" = some " " ∧ (" " : String) ≠ "_" :=
  ⟨rfl, by decide⟩

/-- C7: under an explicit locale, the effective key of a `key = value`
line is `superiors + "." + key` once an active prefix is set and `key`
alone with no active prefix; a `#define superiors app` line sets the
active prefix to `"app"` in any non-continuation loader state; and loading
`"#define superiors app\nwelcome = Hello!"` under `en_US` stores
`"Hello!"` under `"app.welcome"` (while the same entry line without the
directive is stored under `"welcome"` alone). -/
theorem c7_superiors_directive_effective_key :
    (∀ S k : String, S ≠ "" → mkFinalKey S k = S ++ "." ++ k) ∧
    (∀ k : String, mkFinalKey "" k = k) ∧
    (∀ (st : I18nState) (loc : LocArg) (sup k0 : String) (buf : List String),
        processLine ⟨st, loc, sup, false, buf, k0⟩ "#define superiors app" =
          .ok ⟨st, loc, "app", false, buf, k0⟩) ∧
    loadLangContent freshI18n "#define superiors app\nwelcome = Hello!" (some "en_US") none =
      .ok ⟨[("en_US", [("app.welcome", "Hello!")])], "en_US", "en_US"⟩ ∧
    loadLangContent freshI18n "welcome = Hello!" (some "en_US") none =
      .ok ⟨[("en_US", [("welcome", "Hello!")])], "en_US", "en_US"⟩ := by
  refine ⟨fun S k h => ?_, fun k => rfl, fun st loc sup k0 buf => rfl, rfl, rfl⟩
  simp [mkFinalKey, h]

/-- Witness for C7 at `S = "app"`, `k = "welcome"`. -/
theorem c7_superiors_directive_effective_key_witness :
    mkFinalKey "app" "welcome" = "app" ++ "." ++ "welcome" :=
  c7_superiors_directive_effective_key.1 "app" "welcome" (by decide)

/-- C8 (amended): whenever a buffered multi-line value is completed by a
final part carrying no continuation marker and no surrounding quote pair,
and the joined text decodes, `load_lang_content` stores the buffered parts
joined with the empty string while `con_load_lang` stores them joined with
a newline (the two loaders even recognise the lone-backslash continuation
marker differently, so only the former needs the final part to differ from
a lone backslash); on the two-line input `a = x \` followed by `b` the
stored texts are therefore `xb` and `x`-newline-`b`, not identical text as
originally claimed. -/
theorem c8_buffered_join_behaviors :
    (∀ (st : I18nState) (loc : LocArg) (sup k0 k t : String) (buf : List String) (d : String),
        pyEndsWith t " \\" = false → t ≠ "\\" →
        ¬(2 ≤ t.length ∧ pyStartsWith t "\"" = true ∧ pyEndsWith t "\"" = true) →
        decode_escape_sequences (joinWith "" (buf ++ [t])) = some d →
        afterParse ⟨st, loc, sup, false, buf, k0⟩ k t =
          .ok ⟨set_translation st (some loc) (some (mkFinalKey sup k)) (some d),
               loc, sup, false, [], k⟩) ∧
    (∀ (tbl : Table) (loc : LocArg) (sup k0 k t : String) (buf : List String) (d : String),
        pyEndsWith t " \\" = false →
        ¬(2 ≤ t.length ∧ pyStartsWith t "\"" = true ∧ pyEndsWith t "\"" = true) →
        decode_escape_sequences (joinWith "\n" (buf ++ [t])) = some d →
        conAfterParse ⟨tbl, loc, sup, false, buf, k0⟩ k t =
          .ok ⟨conAddTranslation tbl loc (mkFinalKey sup k) d, loc, sup, false, [], k⟩) ∧
    loadLangContent freshI18n "a = x \\\nb" (some "en_US") none =
      .ok ⟨[("en_US", [("a", "xb")])], "en_US", "en_US"⟩ ∧
    conLoadLang [] ["a = x \\", "b"] (.single "en_US") "" =
      .ok [("en_US", [("a", "x\nb")])] := by
  refine ⟨fun st loc sup k0 k t buf d h1 h2 h3 h4 => ?_,
    fun tbl loc sup k0 k t buf d h1 h3 h4 => ?_, rfl, rfl⟩
  · by_cases hbuf : buf = []
    · subst hbuf
      simp only [joinWith, List.nil_append] at h4
      simp [afterParse, h1, h2, h3, h4]
    · simp [afterParse, h1, h2, h3, h4, hbuf]
  · by_cases hbuf : buf = []
    · subst hbuf
      simp only [joinWith, List.nil_append] at h4
      simp [conAfterParse, h1, h3, h4]
    · simp [conAfterParse, h1, h3, h4, hbuf]

/-- Witness for C8 at a concrete buffered state: the final part `"b"`
completes the buffer `["x"]` to `"xb"` under `load_lang_content` and to
`"x"`-newline-`"b"` under `con_load_lang`. -/
theorem c8_buffered_join_behaviors_witness :
    afterParse ⟨freshI18n, .single "en_US", "", false, ["x"], "a"⟩ "a" "b" =
      .ok ⟨set_translation freshI18n (some (.single "en_US")) (some (mkFinalKey "" "a"))
             (some "xb"), .single "en_US", "", false, [], "a"⟩ ∧
    conAfterParse ⟨[], .single "en_US", "", false, ["x"], "a"⟩ "a" "b" =
      .ok ⟨conAddTranslation [] (.single "en_US") (mkFinalKey "" "a") "x\nb",
           .single "en_US", "", false, [], "a"⟩ :=
  ⟨c8_buffered_join_behaviors.1 freshI18n (.single "en_US") "" "a" "a" "b" ["x"] "xb"
      (by decide) (by decide) (by decide) (by rfl),
   c8_buffered_join_behaviors.2.1 [] (.single "en_US") "" "a" "a" "b" ["x"] "x\nb"
      (by decide) (by decide) (by rfl)⟩

/-- C8 counterexample: on the same two-line input (a continuation line
`"a = x \"` followed by `"b"`), under the same locale `en_US` and empty
superiors, `load_lang_content` stores `"xb"` while `con_load_lang` stores
`"x\nb"` — the stored texts are not identical as the claim requires. -/
theorem c8_counterexample_loaders_disagree :
    loadLangContent freshI18n "a = x \\\nb" (some "en_US") none =
      .ok ⟨[("en_US", [("a", "xb")])], "en_US", "en_US"⟩ ∧
    conLoadLang [] ["a = x \\", "b"] (.single "en_US") "" =
      .ok [("en_US", [("a", "x\nb")])] ∧
    ("xb" : String) ≠ "x\nb" :=
  ⟨rfl, rfl, by decide⟩

/-- C9: a `#define locale en_US zh_CN` directive replaces the active
locale of any non-continuation loader state with the whole value list;
an insertion under that list stores the entry under each listed locale
independently; and loading `"#define locale en_US zh_CN\nwelcome =
Hello!"` under an initial locale `ru_RU` stores the entry under both
`en_US` and `zh_CN` (and nothing under `ru_RU`). -/
theorem c9_locale_directive_list_insert :
    (∀ (st : I18nState) (loc : LocArg) (sup k0 : String) (buf : List String),
        processLine ⟨st, loc, sup, false, buf, k0⟩ "#define locale en_US zh_CN" =
          .ok ⟨st, .multi ["en_US", "zh_CN"], sup, false, buf, k0⟩) ∧
    (∀ (st : I18nState) (k v : String),
        tableLookup (set_translation st (some (.multi ["en_US", "zh_CN"]))
            (some k) (some v)).table "en_US" k = some v ∧
        tableLookup (set_translation st (some (.multi ["en_US", "zh_CN"]))
            (some k) (some v)).table "zh_CN" k = some v) ∧
    loadLangContent freshI18n "#define locale en_US zh_CN\nwelcome = Hello!" (some "ru_RU")
        none =
      .ok ⟨[("en_US", [("welcome", "Hello!")]), ("zh_CN", [("welcome", "Hello!")])],
        "en_US", "en_US"⟩ := by
  refine ⟨fun st loc sup k0 buf => rfl, fun st k v => ⟨?_, ?_⟩, rfl⟩
  · show tableLookup
        (tableSetEntry (tableSetEntry st.table "en_US" k v) "zh_CN" k v) "en_US" k = some v
    rw [tableLookup_setEntry_ne _ _ _ _ _ _ (by decide)]
    exact tableLookup_setEntry_self _ _ _ _
  · exact tableLookup_setEntry_self _ _ _ _

end I18nco
